import Mathlib

/-
Verification of the polymarket-mm market-making core.

The Go source works with IEEE float64; this development embeds the same
computations over exact rationals (ℚ).  Timestamps and durations are modelled
as rational numbers of seconds.  The single transcendental operation in the
source, `math.Log(1 + gamma/k)` in `computeQuotes`, is abstracted as an
explicit input `lnTerm`: every theorem below holds for every value of that
input, hence in particular for the logarithm itself.
-/

namespace PolymarketMM

/-- Order side, mirroring `types.Side` (`BUY` / `SELL`). -/
inductive Side where
  | BUY
  | SELL
  deriving DecidableEq

/-- A single execution, mirroring `strategy.Fill` (timestamps in seconds). -/
structure Fill where
  timestamp : ℚ
  side : Side
  tokenID : String
  price : ℚ
  size : ℚ
  tradeID : String
  deriving DecidableEq

/-! ## Inventory (`src/unnamed/part_009`, `strategy.Inventory`) -/

/-- Position for a single market, mirroring `strategy.Position`
(the `LastUpdated` wall-clock field is dropped: no claim mentions it). -/
structure Position where
  yesQty : ℚ
  noQty : ℚ
  avgEntryYes : ℚ
  avgEntryNo : ℚ
  realizedPnL : ℚ
  unrealizedPnL : ℚ
  deriving DecidableEq

/-- The zero position a fresh `NewInventory` starts from. -/
def freshPosition : Position :=
  { yesQty := 0, noQty := 0, avgEntryYes := 0, avgEntryNo := 0
    realizedPnL := 0, unrealizedPnL := 0 }

/-- Mirrors `Inventory.applyYesFill`: BUY increases the YES position and re-averages
the entry price; SELL realizes PnL against the current average, decrements,
and clamps at zero (resetting the average). -/
def applyYesFill (p : Position) (fill : Fill) : Position :=
  if fill.side = Side.BUY then
    let totalCost := p.avgEntryYes * p.yesQty + fill.price * fill.size
    let yesQty := p.yesQty + fill.size
    { p with
      yesQty := yesQty
      avgEntryYes := if 0 < yesQty then totalCost / yesQty else p.avgEntryYes }
  else
    let realized :=
      if 0 < p.yesQty then (fill.price - p.avgEntryYes) * min fill.size p.yesQty else 0
    let yesQty := p.yesQty - fill.size
    if yesQty ≤ 0 then
      { p with yesQty := 0, avgEntryYes := 0, realizedPnL := p.realizedPnL + realized }
    else
      { p with yesQty := yesQty, realizedPnL := p.realizedPnL + realized }

/-- Mirrors `Inventory.applyNoFill`: the NO-side twin of `applyYesFill`. -/
def applyNoFill (p : Position) (fill : Fill) : Position :=
  if fill.side = Side.BUY then
    let totalCost := p.avgEntryNo * p.noQty + fill.price * fill.size
    let noQty := p.noQty + fill.size
    { p with
      noQty := noQty
      avgEntryNo := if 0 < noQty then totalCost / noQty else p.avgEntryNo }
  else
    let realized :=
      if 0 < p.noQty then (fill.price - p.avgEntryNo) * min fill.size p.noQty else 0
    let noQty := p.noQty - fill.size
    if noQty ≤ 0 then
      { p with noQty := 0, avgEntryNo := 0, realizedPnL := p.realizedPnL + realized }
    else
      { p with noQty := noQty, realizedPnL := p.realizedPnL + realized }

/-- Mirrors `Inventory.OnFill`: dispatch on whether the fill's token is the YES token. -/
def onFill (yesToken : String) (p : Position) (fill : Fill) : Position :=
  if fill.tokenID = yesToken then applyYesFill p fill else applyNoFill p fill

/-- Fold a sequence of fills into a position, oldest first. -/
def applyFills (yesToken : String) (p : Position) (fills : List Fill) : Position :=
  fills.foldl (onFill yesToken) p

/-! ## Flow tracker (`src/unnamed/part_005`, `strategy.FlowTracker`) -/

/-- Adverse-selection indicators, mirroring `strategy.ToxicityMetrics`. -/
structure ToxicityMetrics where
  directionalImbalance : ℚ
  fillVelocity : ℚ
  toxicityScore : ℚ
  isAverse : Bool
  deriving DecidableEq

/-- Flow-tracker state, mirroring `strategy.FlowTracker` (durations and the
`lastToxicTime` instant in seconds; `now` is passed explicitly wherever the
source reads the wall clock). -/
structure FlowState where
  windowDuration : ℚ
  fills : List Fill
  toxicityThreshold : ℚ
  cooldownPeriod : ℚ
  maxSpreadMultiple : ℚ
  lastToxicTime : ℚ
  deriving DecidableEq

/-- Mirrors `FlowTracker.evictStaleLocked`: drop the prefix of fills whose timestamp is
not after `now - windowDuration` (the source scans for the first index that is
after the cutoff and keeps the suffix from there; clearing all when none is). -/
def evictFills (windowDuration now : ℚ) (fills : List Fill) : List Fill :=
  fills.dropWhile (fun fill => decide (fill.timestamp ≤ now - windowDuration))

/-- The metric computation at the heart of `FlowTracker.CalculateToxicity`,
applied to the already-evicted window. -/
def toxicityOf (windowDuration toxicityThreshold : ℚ) (fills : List Fill) :
    ToxicityMetrics :=
  if fills.isEmpty then ⟨0, 0, 0, false⟩
  else
    let buyCount := (fills.filter (fun fill => decide (fill.side = Side.BUY))).length
    let sellCount := (fills.filter (fun fill => decide (¬fill.side = Side.BUY))).length
    let totalFills : ℚ := fills.length
    let directionalImbalance := (max buyCount sellCount : ℚ) / totalFills
    if fills.length < 2 then
      { directionalImbalance := directionalImbalance
        fillVelocity := 0
        toxicityScore := directionalImbalance * 0.6
        isAverse := decide (toxicityThreshold < directionalImbalance) }
    else
      let windowDurationMinutes := windowDuration / 60
      let fillVelocity := totalFills / windowDurationMinutes
      let velocityFactor := min (fillVelocity / 3) 1
      let toxicityScore := 0.6 * directionalImbalance + 0.4 * velocityFactor
      { directionalImbalance := directionalImbalance
        fillVelocity := fillVelocity
        toxicityScore := toxicityScore
        isAverse := decide (toxicityThreshold < toxicityScore) }

/-- Mirrors `FlowTracker.CalculateToxicity`: evict stale fills, then compute metrics. -/
def FlowState.calculateToxicity (ft : FlowState) (now : ℚ) : ToxicityMetrics :=
  toxicityOf ft.windowDuration ft.toxicityThreshold
    (evictFills ft.windowDuration now ft.fills)

/-- Mirrors `FlowTracker.GetSpreadMultiplier`: 1.0 under normal conditions, a decaying
multiplier while in post-toxicity cooldown, and a score-scaled multiplier while
currently toxic. -/
def FlowState.spreadMultiplier (ft : FlowState) (now : ℚ) : ℚ :=
  let metrics := ft.calculateToxicity now
  let lastToxicTime := if metrics.isAverse then now else ft.lastToxicTime
  let inCooldown : Bool := decide (now - lastToxicTime < ft.cooldownPeriod)
  if !metrics.isAverse && !inCooldown then 1
  else if metrics.toxicityScore < ft.toxicityThreshold then
    let cooldownProgress := min ((now - lastToxicTime) / ft.cooldownPeriod) 1
    1 + (ft.maxSpreadMultiple - 1) * (1 - cooldownProgress)
  else
    let normalizedScore :=
      (metrics.toxicityScore - ft.toxicityThreshold) / (1 - ft.toxicityThreshold)
    1 + (ft.maxSpreadMultiple - 1) * min (normalizedScore * 2) 1

/-! ## Quote computation (`src/unnamed/part_002`, `Maker.computeQuotes`)

The source derives all quote inputs from the maker's state at the top of the
function body; here they are the fields of `QuoteInput`.  `lnTerm` stands for
`math.Log(1 + gamma/k)` (see the file header), and `flowMult` for the value
`flowTracker.GetSpreadMultiplier()` read at the start of the computation. -/

/-- A desired order, mirroring the `types.UserOrder` fields the claims use. -/
structure UserOrder where
  price : ℚ
  size : ℚ
  side : Side
  deriving DecidableEq

/-- Inputs of one `computeQuotes` call. -/
structure QuoteInput where
  mid : ℚ
  remainingBudget : ℚ
  q : ℚ
  gamma : ℚ
  sigma : ℚ
  k : ℚ
  T : ℚ
  defaultSpreadBps : ℚ
  orderSizeUSD : ℚ
  minOrderSize : ℚ
  tickDec : ℕ
  lnTerm : ℚ
  flowMult : ℚ
  deriving DecidableEq

/-- Mirrors `strategy.clamp`. -/
def clamp (v lo hi : ℚ) : ℚ :=
  if v < lo then lo else if hi < v then hi else v

/-- Mirrors `strategy.roundDownToTick`: `Floor(v·10^d)/10^d`. -/
def roundDownToTick (v : ℚ) (decimals : ℕ) : ℚ :=
  (⌊v * 10 ^ decimals⌋ : ℚ) / 10 ^ decimals

/-- Mirrors `strategy.roundUpToTick`: `Ceil(v·10^d)/10^d`. -/
def roundUpToTick (v : ℚ) (decimals : ℕ) : ℚ :=
  (⌈v * 10 ^ decimals⌉ : ℚ) / 10 ^ decimals

/-- The tick `10^(-tickDec)`, written as `1/10^d` over ℚ. -/
def QuoteInput.tick (i : QuoteInput) : ℚ := 1 / 10 ^ i.tickDec

/-- Effective minimum spread: `DefaultSpreadBps/10000`, flow-multiplied. -/
def QuoteInput.minSpread (i : QuoteInput) : ℚ :=
  i.defaultSpreadBps / 10000 * i.flowMult

/-- Step 1: reservation price `r = mid - q·γ·σ²·T`. -/
def QuoteInput.reservationPrice (i : QuoteInput) : ℚ :=
  i.mid - i.q * i.gamma * i.sigma * i.sigma * i.T

/-- Step 2: optimal spread `(γ·σ²·T + (2/γ)·ln(1+γ/k))`, flow-multiplied. -/
def QuoteInput.optSpread (i : QuoteInput) : ℚ :=
  (i.gamma * i.sigma * i.sigma * i.T + 2 / i.gamma * i.lnTerm) * i.flowMult

/-- Step 3+4: raw bid after the minimum-spread enforcement. -/
def QuoteInput.bidRaw1 (i : QuoteInput) : ℚ :=
  if i.reservationPrice + i.optSpread / 2 - (i.reservationPrice - i.optSpread / 2)
      < i.minSpread then
    i.reservationPrice - i.minSpread / 2
  else i.reservationPrice - i.optSpread / 2

/-- Step 3+4: raw ask after the minimum-spread enforcement. -/
def QuoteInput.askRaw1 (i : QuoteInput) : ℚ :=
  if i.reservationPrice + i.optSpread / 2 - (i.reservationPrice - i.optSpread / 2)
      < i.minSpread then
    i.reservationPrice + i.minSpread / 2
  else i.reservationPrice + i.optSpread / 2

/-- Step 5: clamp the raw bid to `[tick, 1-tick]`. -/
def QuoteInput.bidRaw2 (i : QuoteInput) : ℚ := clamp i.bidRaw1 i.tick (1 - i.tick)

/-- Step 5: clamp the raw ask to `[tick, 1-tick]`. -/
def QuoteInput.askRaw2 (i : QuoteInput) : ℚ := clamp i.askRaw1 i.tick (1 - i.tick)

/-- Step 5: `if bidRaw >= askRaw { bidRaw = askRaw - tick }`. -/
def QuoteInput.bidRaw3 (i : QuoteInput) : ℚ :=
  if i.askRaw2 ≤ i.bidRaw2 then i.askRaw2 - i.tick else i.bidRaw2

/-- Step 5: `if bidRaw < tick { bidRaw = tick }`. -/
def QuoteInput.bidRaw4 (i : QuoteInput) : ℚ :=
  if i.bidRaw3 < i.tick then i.tick else i.bidRaw3

/-- Step 6: bid rounded down to the tick grid. -/
def QuoteInput.bidPrice (i : QuoteInput) : ℚ := roundDownToTick i.bidRaw4 i.tickDec

/-- Step 6: ask rounded up to the tick grid. -/
def QuoteInput.askPriceRaw (i : QuoteInput) : ℚ := roundUpToTick i.askRaw2 i.tickDec

/-- Step 6: `if bidPrice >= askPrice { askPrice = bidPrice + tick }`. -/
def QuoteInput.askPrice (i : QuoteInput) : ℚ :=
  if i.askPriceRaw ≤ i.bidPrice then i.bidPrice + i.tick else i.askPriceRaw

/-- Step 7: `sizeFactor = 1.0 - 0.5·|q|`. -/
def QuoteInput.sizeFactor (i : QuoteInput) : ℚ := 1 - 0.5 * |i.q|

/-- Step 7: `baseSize = OrderSizeUSD / mid`. -/
def QuoteInput.baseSize (i : QuoteInput) : ℚ := i.orderSizeUSD / i.mid

/-- Step 7: bid size after the min-order floor and the per-side budget cap. -/
def QuoteInput.bidSizeCapped (i : QuoteInput) : ℚ :=
  min (max (i.baseSize * i.sizeFactor) i.minOrderSize) (i.remainingBudget / i.bidPrice)

/-- Step 7: ask size after the min-order floor and the per-side budget cap. -/
def QuoteInput.askSizeCapped (i : QuoteInput) : ℚ :=
  min (max (i.baseSize * i.sizeFactor) i.minOrderSize) (i.remainingBudget / i.askPrice)

/-- Step 7: combined quoted notional before the budget rescale. -/
def QuoteInput.totalNotional (i : QuoteInput) : ℚ :=
  i.bidSizeCapped * i.bidPrice + i.askSizeCapped * i.askPrice

/-- Step 7: final bid size after the combined-notional rescale. -/
def QuoteInput.bidSize (i : QuoteInput) : ℚ :=
  if i.remainingBudget < i.totalNotional ∧ 0 < i.totalNotional then
    i.bidSizeCapped * (i.remainingBudget / i.totalNotional)
  else i.bidSizeCapped

/-- Step 7: final ask size after the combined-notional rescale. -/
def QuoteInput.askSize (i : QuoteInput) : ℚ :=
  if i.remainingBudget < i.totalNotional ∧ 0 < i.totalNotional then
    i.askSizeCapped * (i.remainingBudget / i.totalNotional)
  else i.askSizeCapped

/-- Emission gate for the bid side: size at least `MinOrderSize`, price
strictly inside `(0, 1)`. -/
def QuoteInput.bidOrder (i : QuoteInput) : Option UserOrder :=
  if i.minOrderSize ≤ i.bidSize ∧ 0 < i.bidPrice ∧ i.bidPrice < 1 then
    some { price := i.bidPrice, size := i.bidSize, side := Side.BUY }
  else none

/-- Emission gate for the ask side. -/
def QuoteInput.askOrder (i : QuoteInput) : Option UserOrder :=
  if i.minOrderSize ≤ i.askSize ∧ 0 < i.askPrice ∧ i.askPrice < 1 then
    some { price := i.askPrice, size := i.askSize, side := Side.SELL }
  else none

/-- Mirrors `Maker.computeQuotes`: the `(Bid, Ask)` pair of the returned `QuotePair`. -/
def computeQuotes (i : QuoteInput) : Option UserOrder × Option UserOrder :=
  (i.bidOrder, i.askOrder)

/-! ## Order book (`src/internal/market/book.go`, `market.Book`)

The book stores price levels as decimal strings and parses them on read with
`parsePrice`, which maps unparseable strings to `0`.  The model stores the
parsed prices directly: a level whose string is `"0"` (or malformed) is a
level with price `0`. -/

/-- A YES-token book: parsed bid prices (best first) and ask prices. -/
structure Book where
  yesBids : List ℚ
  yesAsks : List ℚ
  deriving DecidableEq

/-- Mirrors `Book.BestBidAsk`: the first level of each side; fails if either is empty. -/
def Book.bestBidAsk (b : Book) : Option (ℚ × ℚ) :=
  match b.yesBids, b.yesAsks with
  | bid :: _, ask :: _ => some (bid, ask)
  | _, _ => none

/-- Mirrors `Book.MidPrice`: `(bid+ask)/2`, with the source's `bid == 0 && ask == 0`
guard. -/
def Book.midPrice (b : Book) : Option ℚ :=
  match b.bestBidAsk with
  | none => none
  | some (bid, ask) => if bid = 0 ∧ ask = 0 then none else some ((bid + ask) / 2)

/-! ## Risk manager (`src/internal/risk/manager.go`, `risk.Manager`)

Go maps are modelled as association lists; `setKey` writes a key the way a Go
map assignment does (at most one binding per key afterwards) and `eraseKey`
models `delete`.  The kill channel is a bounded FIFO queue (`killCh` with
capacity `killChCap`), and `now` is passed explicitly wherever the source
reads the wall clock. -/

/-- A per-market report, mirroring `risk.PositionReport`. -/
structure PositionReport where
  marketID : String
  yesQty : ℚ
  noQty : ℚ
  midPrice : ℚ
  exposureUSD : ℚ
  unrealizedPnL : ℚ
  realizedPnL : ℚ
  timestamp : ℚ
  deriving DecidableEq

/-- The risk limits of `config.RiskConfig` that `risk.Manager` reads. -/
structure RiskConfig where
  maxPositionPerMarket : ℚ
  maxGlobalExposure : ℚ
  maxDailyLoss : ℚ
  killSwitchDropPct : ℚ
  killSwitchWindowSec : ℚ
  cooldownAfterKill : ℚ
  deriving DecidableEq

/-- Mirrors `risk.KillSignal`. -/
structure KillSignal where
  marketID : String
  reason : String
  deriving DecidableEq

/-- Mirrors `risk.priceAnchor`. -/
structure PriceAnchor where
  price : ℚ
  timestamp : ℚ
  deriving DecidableEq

/-- Replace (or insert) the binding of key `k`, as a Go map assignment does. -/
def setKey {β : Type} (k : String) (v : β) (l : List (String × β)) :
    List (String × β) :=
  l.filter (fun kv => decide (¬kv.1 = k)) ++ [(k, v)]

/-- Remove every binding of key `k`, as a Go map `delete` does. -/
def eraseKey {β : Type} (k : String) (l : List (String × β)) :
    List (String × β) :=
  l.filter (fun kv => decide (¬kv.1 = k))

/-- The `risk.Manager` state. -/
structure Manager where
  cfg : RiskConfig
  positions : List (String × PositionReport)
  totalExposure : ℚ
  totalRealizedPnL : ℚ
  killSwitchActive : Bool
  killSwitchUntil : ℚ
  priceAnchors : List (String × PriceAnchor)
  killCh : List KillSignal
  killChCap : ℕ
  deriving DecidableEq

/-- Mirrors `Manager.RemainingBudget`: the smaller of the per-market and global
headrooms, floored at zero. -/
def Manager.remainingBudget (rm : Manager) (marketID : String) : ℚ :=
  let currentExposure :=
    match rm.positions.lookup marketID with
    | some pos => pos.exposureUSD
    | none => 0
  let perMarket := rm.cfg.maxPositionPerMarket - currentExposure
  let global := rm.cfg.maxGlobalExposure - rm.totalExposure
  let remaining := if global < perMarket then global else perMarket
  if remaining < 0 then 0 else remaining

/-- Mirrors `Manager.emitKill`: activate the switch, stamp the cooldown expiry, and
enqueue the signal without blocking — if the kill queue is full, drain the
oldest signal first. -/
def Manager.emitKill (rm : Manager) (now : ℚ) (marketID reason : String) :
    Manager :=
  let sig : KillSignal := { marketID := marketID, reason := reason }
  { rm with
    killSwitchActive := true
    killSwitchUntil := now + rm.cfg.cooldownAfterKill
    killCh :=
      if rm.killCh.length < rm.killChCap then rm.killCh ++ [sig]
      else rm.killCh.drop 1 ++ [sig] }

/-- Mirrors `Manager.RemoveMarket`: delete the latest report and the price anchor. -/
def Manager.removeMarket (rm : Manager) (marketID : String) : Manager :=
  { rm with
    positions := eraseKey marketID rm.positions
    priceAnchors := eraseKey marketID rm.priceAnchors }

/-- Mirrors `Manager.checkPriceMovement`: reset the anchor when missing or expired,
guard against a zero anchor price, and fire the kill switch when the absolute
percentage move from the anchor exceeds `KillSwitchDropPct` (the source
formats the rate into the reason string; the model keeps the fixed prefix). -/
def Manager.checkPriceMovement (rm : Manager) (now : ℚ) (r : PositionReport) :
    Manager :=
  let window := rm.cfg.killSwitchWindowSec
  match rm.priceAnchors.lookup r.marketID with
  | none =>
    { rm with
      priceAnchors :=
        setKey r.marketID { price := r.midPrice, timestamp := r.timestamp }
          rm.priceAnchors }
  | some anchor =>
    if window < r.timestamp - anchor.timestamp then
      { rm with
        priceAnchors :=
          setKey r.marketID { price := r.midPrice, timestamp := r.timestamp }
            rm.priceAnchors }
    else if anchor.price = 0 then rm
    else
      let pctChangeRaw := (r.midPrice - anchor.price) / anchor.price
      let pctChange := if pctChangeRaw < 0 then -pctChangeRaw else pctChangeRaw
      if rm.cfg.killSwitchDropPct < pctChange then
        rm.emitKill now r.marketID "rapid price movement"
      else rm

/-- Mirrors `Manager.processReport`: store the report, recompute the running totals by
summing the report map, then run the per-market, global, daily-loss and
rapid-move checks in order. -/
def Manager.processReport (rm : Manager) (now : ℚ) (r : PositionReport) :
    Manager :=
  let positions := setKey r.marketID r rm.positions
  let totalExposure := (positions.map (fun kv => kv.2.exposureUSD)).sum
  let totalRealizedPnL := (positions.map (fun kv => kv.2.realizedPnL)).sum
  let totalUnrealizedPnL := (positions.map (fun kv => kv.2.unrealizedPnL)).sum
  let rm1 : Manager := { rm with
    positions := positions
    totalExposure := totalExposure
    totalRealizedPnL := totalRealizedPnL }
  let rm2 : Manager :=
    if rm1.cfg.maxPositionPerMarket < r.exposureUSD then
      rm1.emitKill now r.marketID "per-market position limit breached"
    else rm1
  let rm3 : Manager :=
    if rm2.cfg.maxGlobalExposure < rm2.totalExposure then
      rm2.emitKill now "" "global exposure limit breached"
    else rm2
  let totalPnL : ℚ := rm3.totalRealizedPnL + totalUnrealizedPnL
  let rm4 : Manager :=
    if totalPnL < -rm3.cfg.maxDailyLoss then
      rm3.emitKill now "" "max daily loss breached"
    else rm3
  rm4.checkPriceMovement now r

/-! ## Shared helper lemmas -/

theorem clamp_bounds {v lo hi : ℚ} (h : lo ≤ hi) :
    lo ≤ clamp v lo hi ∧ clamp v lo hi ≤ hi := by
  unfold clamp
  split_ifs <;> constructor <;> linarith

theorem ifChain_eq_max_min (a b : ℚ) :
    (if (if b < a then b else a) < 0 then (0 : ℚ) else if b < a then b else a) =
      max 0 (min a b) := by
  rw [max_def, min_def]
  split_ifs <;> linarith

theorem lookup_eraseKey_self {β : Type} (k : String) (l : List (String × β)) :
    (eraseKey k l).lookup k = none := by
  induction l with
  | nil => rfl
  | cons hd tl ih =>
    obtain ⟨a, v⟩ := hd
    by_cases hk : a = k
    · have h1 : eraseKey k ((a, v) :: tl) = eraseKey k tl := by
        simp [eraseKey, List.filter_cons, hk]
      rw [h1]
      exact ih
    · have h1 : eraseKey k ((a, v) :: tl) = (a, v) :: eraseKey k tl := by
        simp [eraseKey, List.filter_cons, hk]
      have h2 : (k == a) = false := by simp [Ne.symm hk]
      rw [h1, List.lookup, h2]
      exact ih

theorem lookup_eraseKey_ne {β : Type} {k k' : String} (l : List (String × β))
    (h : ¬k' = k) : (eraseKey k l).lookup k' = l.lookup k' := by
  induction l with
  | nil => rfl
  | cons hd tl ih =>
    obtain ⟨a, v⟩ := hd
    by_cases hk : a = k
    · have h1 : eraseKey k ((a, v) :: tl) = eraseKey k tl := by
        simp [eraseKey, List.filter_cons, hk]
      have h2 : (k' == a) = false := by simp [hk ▸ h]
      rw [h1, List.lookup, h2]
      exact ih
    · have h1 : eraseKey k ((a, v) :: tl) = (a, v) :: eraseKey k tl := by
        simp [eraseKey, List.filter_cons, hk]
      rw [h1]
      cases hab : (k' == a) with
      | true => rw [List.lookup, hab, List.lookup, hab]
      | false =>
        rw [List.lookup, hab, List.lookup, hab]
        exact ih

/-! ## C6: remaining budget -/

/-- The exposure of `m`'s latest report, `0` when none is stored. -/
def Manager.marketExposure (rm : Manager) (m : String) : ℚ :=
  match rm.positions.lookup m with
  | some pos => pos.exposureUSD
  | none => 0

/-- A report whose fields other than the market id and exposure are inert. -/
def sampleReport (marketID : String) (exposureUSD : ℚ) : PositionReport :=
  { marketID := marketID, yesQty := 0, noQty := 0, midPrice := 1/2
    exposureUSD := exposureUSD, unrealizedPnL := 0, realizedPnL := 0
    timestamp := 0 }

/-- Risk manager with five other markets at exposure 95 each (total 475),
per-market limit 100 and global limit 500. -/
def mgrC6 : Manager :=
  { cfg := { maxPositionPerMarket := 100, maxGlobalExposure := 500
             maxDailyLoss := 50, killSwitchDropPct := 1/10
             killSwitchWindowSec := 60, cooldownAfterKill := 300 }
    positions := [("m2", sampleReport "m2" 95), ("m3", sampleReport "m3" 95),
      ("m4", sampleReport "m4" 95), ("m5", sampleReport "m5" 95),
      ("m6", sampleReport "m6" 95)]
    totalExposure := 475, totalRealizedPnL := 0
    killSwitchActive := false, killSwitchUntil := 0
    priceAnchors := [], killCh := [], killChCap := 10 }

/-- C6: `RemainingBudget(m)` equals
`max(0, min(max_position_per_market − exposure(m), max_global_exposure −
total_exposure))` for every manager state and market, and in the concrete
five-market scenario (five others at exposure 95, limits 100/500) a query for
a market with no position returns 25. -/
theorem remainingBudget_spec :
    (∀ (rm : Manager) (m : String),
      rm.remainingBudget m =
        max 0 (min (rm.cfg.maxPositionPerMarket - rm.marketExposure m)
          (rm.cfg.maxGlobalExposure - rm.totalExposure))) ∧
    mgrC6.remainingBudget "m1" = 25 := by
  constructor
  · intro rm m
    simp only [Manager.remainingBudget, Manager.marketExposure]
    cases h : rm.positions.lookup m with
    | none =>
      simp only [h]
      exact ifChain_eq_max_min _ _
    | some pos =>
      simp only [h]
      exact ifChain_eq_max_min _ _
  · simp [Manager.remainingBudget, mgrC6, List.lookup, sampleReport]
    norm_num

/-! ## C8: mid price -/

/-- Book whose two sides are non-empty but whose best levels parse to `0`. -/
def bookC8 : Book := { yesBids := [0], yesAsks := [0] }

/-- C8 counterexample: a book with both sides non-empty on which `MidPrice`
returns no value (the `bid == 0 && ask == 0` guard), refuting the claimed
"if and only if both sides are non-empty". -/
theorem midPrice_zero_book_cex :
    ¬bookC8.yesBids = [] ∧ ¬bookC8.yesAsks = [] ∧ bookC8.midPrice = none := by
  refine ⟨by simp [bookC8], by simp [bookC8], ?_⟩
  simp [bookC8, Book.midPrice, Book.bestBidAsk]

/-- C8 (amended): `MidPrice` returns a value iff both YES sides are non-empty
and the parsed best levels are not both `0`; the value is
`(best_bid + best_ask)/2`. -/
theorem midPrice_iff (b : Book) :
    (b.midPrice.isSome = true ↔
      ¬b.yesBids = [] ∧ ¬b.yesAsks = [] ∧
        ¬(b.yesBids.headI = 0 ∧ b.yesAsks.headI = 0)) ∧
    (∀ v, b.midPrice = some v → v = (b.yesBids.headI + b.yesAsks.headI) / 2) := by
  rcases b with ⟨_ | ⟨bid, bids⟩, _ | ⟨ask, asks⟩⟩ <;>
    simp only [Book.midPrice, Book.bestBidAsk]
  · simp
  · simp
  · simp
  constructor
  · split_ifs with h <;> simp [h]
  · intro v
    split_ifs with h
    · simp
    · simp only [Option.some.injEq, List.headI]
      intro hv
      exact hv.symm

/-! ## Tick-grid helper lemmas -/

theorem tick_pos (i : QuoteInput) : 0 < i.tick := by
  unfold QuoteInput.tick
  positivity

theorem tick_le_tenth (i : QuoteInput) (hd : 1 ≤ i.tickDec) : i.tick ≤ 1/10 := by
  unfold QuoteInput.tick
  rw [div_le_div_iff (by positivity) (by norm_num)]
  have h := pow_le_pow_right (by norm_num : (1:ℚ) ≤ 10) hd
  simpa using h

theorem roundDownToTick_le (v : ℚ) (d : ℕ) : roundDownToTick v d ≤ v := by
  unfold roundDownToTick
  rw [div_le_iff (by positivity : (0:ℚ) < 10 ^ d)]
  exact Int.floor_le (v * 10 ^ d)

theorem le_roundDownToTick (v : ℚ) (d : ℕ) (h : 1 / 10 ^ d ≤ v) :
    1 / 10 ^ d ≤ roundDownToTick v d := by
  have hP : (0:ℚ) < 10 ^ d := by positivity
  rw [div_le_iff hP] at h
  unfold roundDownToTick
  rw [div_le_div_iff hP hP]
  have h1 : (1:ℤ) ≤ ⌊v * 10 ^ d⌋ := Int.le_floor.mpr (by push_cast; linarith)
  have h1q : (1:ℚ) ≤ (⌊v * 10 ^ d⌋ : ℚ) := by exact_mod_cast h1
  nlinarith

theorem le_roundUpToTick (v : ℚ) (d : ℕ) : v ≤ roundUpToTick v d := by
  unfold roundUpToTick
  rw [le_div_iff (by positivity : (0:ℚ) < 10 ^ d)]
  exact Int.le_ceil (v * 10 ^ d)

theorem roundUpToTick_le (v : ℚ) (d : ℕ) (h : v ≤ 1 - 1 / 10 ^ d) :
    roundUpToTick v d ≤ 1 - 1 / 10 ^ d := by
  have hP : (0:ℚ) < 10 ^ d := by positivity
  have hfs : (1 - 1 / 10 ^ d) * 10 ^ d = (10:ℚ) ^ d - 1 := by field_simp
  have h1 : v * 10 ^ d ≤ (10:ℚ) ^ d - 1 := by
    have hm := mul_le_mul_of_nonneg_right h hP.le
    linarith [hm, hfs]
  have hz : ⌈v * 10 ^ d⌉ ≤ (10 : ℤ) ^ d - 1 := by
    apply Int.ceil_le.mpr
    push_cast
    linarith
  have h2 : (⌈v * 10 ^ d⌉ : ℚ) ≤ (10:ℚ) ^ d - 1 := by exact_mod_cast hz
  unfold roundUpToTick
  rw [div_le_iff hP]
  linarith [h2, hfs]

theorem roundDownToTick_isMul (v : ℚ) (d : ℕ) :
    ∃ n : ℤ, roundDownToTick v d = n * (1 / 10 ^ d) := by
  refine ⟨⌊v * 10 ^ d⌋, ?_⟩
  unfold roundDownToTick
  ring

theorem roundUpToTick_isMul (v : ℚ) (d : ℕ) :
    ∃ n : ℤ, roundUpToTick v d = n * (1 / 10 ^ d) := by
  refine ⟨⌈v * 10 ^ d⌉, ?_⟩
  unfold roundUpToTick
  ring

/-- Bounds after the clamp and bid/ask ordering repair steps. -/
theorem bidRaw4_bounds (i : QuoteInput) (hd : 1 ≤ i.tickDec) :
    i.tick ≤ i.bidRaw4 ∧ i.bidRaw4 ≤ i.askRaw2 ∧
    i.tick ≤ i.askRaw2 ∧ i.askRaw2 ≤ 1 - i.tick := by
  have htick := tick_pos i
  have hth := tick_le_tenth i hd
  have hlohi : i.tick ≤ 1 - i.tick := by linarith
  have hb2 : i.tick ≤ i.bidRaw2 ∧ i.bidRaw2 ≤ 1 - i.tick := clamp_bounds hlohi
  have ha2 : i.tick ≤ i.askRaw2 ∧ i.askRaw2 ≤ 1 - i.tick := clamp_bounds hlohi
  refine ⟨?_, ?_, ha2.1, ha2.2⟩ <;>
  · unfold QuoteInput.bidRaw4 QuoteInput.bidRaw3
    split_ifs <;> linarith [hb2.1, hb2.2, ha2.1, ha2.2]

/-! ## C1: price grid and ordering -/

/-- C1: whenever `computeQuotes` emits both sides — for any mid in `(0,1)`,
inventory skew in `[-1,1]`, recognized tick (`tick_decimals ∈ [1,4]`) and
positive `γ, σ, k, T` — the emitted prices satisfy
`tick ≤ bid < ask ≤ 1 − tick` and both prices sit on the tick grid (exactly,
in the rational model). -/
theorem computeQuotes_price_grid (i : QuoteInput) {b a : UserOrder}
    (hd : 1 ≤ i.tickDec) (hd4 : i.tickDec ≤ 4)
    (hmid : 0 < i.mid ∧ i.mid < 1) (hq : -1 ≤ i.q ∧ i.q ≤ 1)
    (hgamma : 0 < i.gamma) (hsigma : 0 < i.sigma) (hk : 0 < i.k) (hT : 0 < i.T)
    (hb : i.bidOrder = some b) (ha : i.askOrder = some a) :
    i.tick ≤ b.price ∧ b.price < a.price ∧ a.price ≤ 1 - i.tick ∧
    (∃ n : ℤ, b.price = n * i.tick) ∧ (∃ n : ℤ, a.price = n * i.tick) := by
  have hbp : b.price = i.bidPrice := by
    unfold QuoteInput.bidOrder at hb
    split_ifs at hb
    cases hb
    rfl
  have hap : a.price = i.askPrice := by
    unfold QuoteInput.askOrder at ha
    split_ifs at ha
    cases ha
    rfl
  obtain ⟨h41, h42, h43, h44⟩ := bidRaw4_bounds i hd
  have htick := tick_pos i
  have hth := tick_le_tenth i hd
  have hble : i.bidPrice ≤ i.bidRaw4 := roundDownToTick_le i.bidRaw4 i.tickDec
  have hbt : i.tick ≤ i.bidPrice := le_roundDownToTick i.bidRaw4 i.tickDec h41
  have hale : i.askRaw2 ≤ i.askPriceRaw := le_roundUpToTick i.askRaw2 i.tickDec
  have halt : i.askPriceRaw ≤ 1 - i.tick := roundUpToTick_le i.askRaw2 i.tickDec h44
  obtain ⟨nb, hnb⟩ : ∃ n : ℤ, i.bidPrice = n * i.tick :=
    roundDownToTick_isMul i.bidRaw4 i.tickDec
  obtain ⟨na, hna⟩ : ∃ n : ℤ, i.askPriceRaw = n * i.tick :=
    roundUpToTick_isMul i.askRaw2 i.tickDec
  rw [hbp, hap]
  unfold QuoteInput.askPrice
  by_cases hbump : i.askPriceRaw ≤ i.bidPrice
  · rw [if_pos hbump]
    have he2 : i.bidRaw4 = i.askRaw2 := le_antisymm h42 (by linarith)
    have he3 : i.bidRaw4 = i.tick := by
      by_cases hc2 : i.askRaw2 ≤ i.bidRaw2
      · have hb3 : i.bidRaw3 = i.askRaw2 - i.tick := by
          unfold QuoteInput.bidRaw3
          rw [if_pos hc2]
        by_cases hc1 : i.bidRaw3 < i.tick
        · unfold QuoteInput.bidRaw4
          rw [if_pos hc1]
        · have hb4 : i.bidRaw4 = i.bidRaw3 := by
            unfold QuoteInput.bidRaw4
            rw [if_neg hc1]
          exfalso
          rw [hb4, hb3] at he2
          linarith
      · have hb3 : i.bidRaw3 = i.bidRaw2 := by
          unfold QuoteInput.bidRaw3
          rw [if_neg hc2]
        by_cases hc1 : i.bidRaw3 < i.tick
        · unfold QuoteInput.bidRaw4
          rw [if_pos hc1]
        · have hb4 : i.bidRaw4 = i.bidRaw3 := by
            unfold QuoteInput.bidRaw4
            rw [if_neg hc1]
          exfalso
          rw [hb4, hb3] at he2
          push_neg at hc2
          linarith
    have hbpt : i.bidPrice = i.tick := le_antisymm (he3 ▸ hble) hbt
    refine ⟨hbt, by linarith, by linarith, ⟨nb, hnb⟩, ⟨nb + 1, ?_⟩⟩
    rw [hnb]
    push_cast
    ring
  · rw [if_neg hbump]
    push_neg at hbump
    exact ⟨hbt, hbump, halt, ⟨nb, hnb⟩, ⟨na, hna⟩⟩

/-! ## C2: budget bound -/

/-- C2: when both sides are emitted with positive remaining budget, each side
is first capped at `remaining_budget/price`, and the combined notional
`bid·bid_size + ask·ask_size` never exceeds the remaining budget (exactly, in
the rational model — the scale-down branch makes it exactly equal). -/
theorem computeQuotes_budget_bound (i : QuoteInput) {b a : UserOrder}
    (hmid : 0 < i.mid ∧ i.mid < 1) (hB : 0 < i.remainingBudget)
    (hq : -1 ≤ i.q ∧ i.q ≤ 1)
    (hb : i.bidOrder = some b) (ha : i.askOrder = some a) :
    i.bidSizeCapped ≤ i.remainingBudget / i.bidPrice ∧
    i.askSizeCapped ≤ i.remainingBudget / i.askPrice ∧
    b.price * b.size + a.price * a.size ≤ i.remainingBudget := by
  have hbpair : b.price = i.bidPrice ∧ b.size = i.bidSize := by
    unfold QuoteInput.bidOrder at hb
    split_ifs at hb
    cases hb
    exact ⟨rfl, rfl⟩
  have hapair : a.price = i.askPrice ∧ a.size = i.askSize := by
    unfold QuoteInput.askOrder at ha
    split_ifs at ha
    cases ha
    exact ⟨rfl, rfl⟩
  refine ⟨min_le_right _ _, min_le_right _ _, ?_⟩
  rw [hbpair.1, hbpair.2, hapair.1, hapair.2]
  have hTN : i.totalNotional =
      i.bidSizeCapped * i.bidPrice + i.askSizeCapped * i.askPrice := rfl
  unfold QuoteInput.bidSize QuoteInput.askSize
  by_cases hsc : i.remainingBudget < i.totalNotional ∧ 0 < i.totalNotional
  · rw [if_pos hsc, if_pos hsc]
    have hne : i.totalNotional ≠ 0 := ne_of_gt hsc.2
    have heq : i.bidPrice * (i.bidSizeCapped * (i.remainingBudget / i.totalNotional)) +
        i.askPrice * (i.askSizeCapped * (i.remainingBudget / i.totalNotional)) =
        i.remainingBudget := by
      calc
        i.bidPrice * (i.bidSizeCapped * (i.remainingBudget / i.totalNotional)) +
            i.askPrice * (i.askSizeCapped * (i.remainingBudget / i.totalNotional)) =
            (i.bidSizeCapped * i.bidPrice + i.askSizeCapped * i.askPrice) *
              (i.remainingBudget / i.totalNotional) := by ring
        _ = i.totalNotional * (i.remainingBudget / i.totalNotional) := by rw [← hTN]
        _ = i.remainingBudget := by field_simp
    exact le_of_eq heq
  · rw [if_neg hsc, if_neg hsc]
    have heq : i.bidPrice * i.bidSizeCapped + i.askPrice * i.askSizeCapped =
        i.totalNotional := by
      rw [hTN]
      ring
    push_neg at hsc
    by_cases hlt : i.remainingBudget < i.totalNotional
    · have h0 : i.totalNotional ≤ 0 := hsc hlt
      linarith
    · push_neg at hlt
      linarith

/-! ## Concrete quote-computation scenario (spec scenario 1) -/

/-- Balanced quoting scenario: `γ=0.5, σ=0.2, k=10, T=0.5`, 100 bps minimum
spread, tick `0.01`, mid `0.50`, budget `1000`, empty inventory; `lnTerm` is a
rational stand-in for `ln(1 + γ/k) = ln(1.05) ≈ 0.04879`. -/
def i0 : QuoteInput :=
  { mid := 1/2, remainingBudget := 1000, q := 0, gamma := 1/2, sigma := 1/5
    k := 10, T := 1/2, defaultSpreadBps := 100, orderSizeUSD := 100
    minOrderSize := 5, tickDec := 2, lnTerm := 4879/100000, flowMult := 1 }

theorem i0_bidRaw4_eval : i0.bidRaw4 = 19871/50000 := by
  norm_num [QuoteInput.bidRaw4, QuoteInput.bidRaw3, QuoteInput.bidRaw2,
    QuoteInput.askRaw2, QuoteInput.bidRaw1, QuoteInput.askRaw1,
    QuoteInput.reservationPrice, QuoteInput.optSpread, QuoteInput.minSpread,
    QuoteInput.tick, clamp, i0]

theorem i0_askRaw2_eval : i0.askRaw2 = 30129/50000 := by
  norm_num [QuoteInput.askRaw2, QuoteInput.askRaw1,
    QuoteInput.reservationPrice, QuoteInput.optSpread, QuoteInput.minSpread,
    QuoteInput.tick, clamp, i0]

theorem i0_bidPrice_eval : i0.bidPrice = 39/100 := by
  unfold QuoteInput.bidPrice
  rw [i0_bidRaw4_eval]
  norm_num [roundDownToTick, i0]

theorem i0_askPrice_eval : i0.askPrice = 61/100 := by
  have hraw : i0.askPriceRaw = 61/100 := by
    unfold QuoteInput.askPriceRaw
    rw [i0_askRaw2_eval]
    show (⌈(30129:ℚ)/50000 * 10 ^ (2:ℕ)⌉ : ℚ) / 10 ^ (2:ℕ) = 61/100
    have hc : ⌈(30129:ℚ)/50000 * 10 ^ (2:ℕ)⌉ = 61 := by
      rw [show (30129:ℚ)/50000 * 10 ^ (2:ℕ) = 30129/500 by norm_num]
      rw [Int.ceil_eq_iff]
      norm_num
    rw [hc]
    norm_num
  unfold QuoteInput.askPrice
  rw [hraw, i0_bidPrice_eval]
  norm_num

theorem i0_bidSizeCapped_eval : i0.bidSizeCapped = 200 := by
  unfold QuoteInput.bidSizeCapped QuoteInput.baseSize QuoteInput.sizeFactor
  rw [i0_bidPrice_eval]
  norm_num [i0]

theorem i0_askSizeCapped_eval : i0.askSizeCapped = 200 := by
  unfold QuoteInput.askSizeCapped QuoteInput.baseSize QuoteInput.sizeFactor
  rw [i0_askPrice_eval]
  norm_num [i0]

theorem i0_totalNotional_eval : i0.totalNotional = 200 := by
  unfold QuoteInput.totalNotional
  rw [i0_bidSizeCapped_eval, i0_askSizeCapped_eval, i0_bidPrice_eval,
    i0_askPrice_eval]
  norm_num

theorem i0_bidOrder_eval :
    i0.bidOrder = some { price := 39/100, size := 200, side := Side.BUY } := by
  have hsz : i0.bidSize = 200 := by
    unfold QuoteInput.bidSize
    rw [i0_totalNotional_eval, i0_bidSizeCapped_eval]
    norm_num [i0]
  unfold QuoteInput.bidOrder
  rw [hsz, i0_bidPrice_eval]
  norm_num [i0]

theorem i0_askOrder_eval :
    i0.askOrder = some { price := 61/100, size := 200, side := Side.SELL } := by
  have hsz : i0.askSize = 200 := by
    unfold QuoteInput.askSize
    rw [i0_totalNotional_eval, i0_askSizeCapped_eval]
    norm_num [i0]
  unfold QuoteInput.askOrder
  rw [hsz, i0_askPrice_eval]
  norm_num [i0]

theorem computeQuotes_price_grid_witness :
    i0.tick ≤ (39:ℚ)/100 ∧ (39:ℚ)/100 < (61:ℚ)/100 ∧
    (61:ℚ)/100 ≤ 1 - i0.tick ∧
    (∃ n : ℤ, (39:ℚ)/100 = n * i0.tick) ∧
    (∃ n : ℤ, (61:ℚ)/100 = n * i0.tick) :=
  computeQuotes_price_grid i0 (by norm_num [i0]) (by norm_num [i0])
    (by norm_num [i0]) (by norm_num [i0]) (by norm_num [i0])
    (by norm_num [i0]) (by norm_num [i0]) (by norm_num [i0])
    i0_bidOrder_eval i0_askOrder_eval

theorem computeQuotes_budget_bound_witness :
    i0.bidSizeCapped ≤ i0.remainingBudget / i0.bidPrice ∧
    i0.askSizeCapped ≤ i0.remainingBudget / i0.askPrice ∧
    (39:ℚ)/100 * 200 + (61:ℚ)/100 * 200 ≤ i0.remainingBudget :=
  computeQuotes_budget_bound i0 (by norm_num [i0]) (by norm_num [i0])
    (by norm_num [i0]) i0_bidOrder_eval i0_askOrder_eval

/-! ## C3: inventory invariants -/

/-- The position invariant of the spec: non-negative quantities, and a zero
quantity forces a zero average entry on that side. -/
def PosInv (p : Position) : Prop :=
  0 ≤ p.yesQty ∧ 0 ≤ p.noQty ∧
    (p.yesQty = 0 → p.avgEntryYes = 0) ∧ (p.noQty = 0 → p.avgEntryNo = 0)

theorem posInv_onFill (yesToken : String) (p : Position) (fill : Fill)
    (hp : PosInv p) (hs : 0 ≤ fill.size) : PosInv (onFill yesToken p fill) := by
  obtain ⟨hy, hn, hay, han⟩ := hp
  unfold onFill applyYesFill applyNoFill
  by_cases htok : fill.tokenID = yesToken
  · rw [if_pos htok]
    by_cases hside : fill.side = Side.BUY
    · rw [if_pos hside]
      simp only [PosInv]
      refine ⟨by linarith, hn, ?_, han⟩
      intro h0
      have hnpos : ¬(0 < p.yesQty + fill.size) := by rw [h0]; exact lt_irrefl 0
      rw [if_neg hnpos]
      exact hay (by linarith)
    · rw [if_neg hside]
      simp only [PosInv]
      by_cases hz : p.yesQty - fill.size ≤ 0
      · rw [if_pos hz]
        exact ⟨le_refl 0, hn, fun _ => rfl, han⟩
      · rw [if_neg hz]
        push_neg at hz
        exact ⟨le_of_lt hz, hn, fun h0 => absurd h0 (ne_of_gt hz), han⟩
  · rw [if_neg htok]
    by_cases hside : fill.side = Side.BUY
    · rw [if_pos hside]
      simp only [PosInv]
      refine ⟨hy, by linarith, hay, ?_⟩
      intro h0
      have hnpos : ¬(0 < p.noQty + fill.size) := by rw [h0]; exact lt_irrefl 0
      rw [if_neg hnpos]
      exact han (by linarith)
    · rw [if_neg hside]
      simp only [PosInv]
      by_cases hz : p.noQty - fill.size ≤ 0
      · rw [if_pos hz]
        exact ⟨hy, le_refl 0, hay, fun _ => rfl⟩
      · rw [if_neg hz]
        push_neg at hz
        exact ⟨hy, le_of_lt hz, hay, fun h0 => absurd h0 (ne_of_gt hz)⟩

theorem posInv_applyFills (yesToken : String) (fills : List Fill) :
    ∀ p : Position, PosInv p → (∀ f ∈ fills, 0 ≤ f.size) →
      PosInv (applyFills yesToken p fills) := by
  induction fills with
  | nil => intro p hp _; exact hp
  | cons f fs ih =>
    intro p hp hs
    have h1 : PosInv (onFill yesToken p f) :=
      posInv_onFill yesToken p f hp (hs f (by simp))
    have h2 : ∀ g ∈ fs, 0 ≤ g.size := fun g hg => hs g (by simp [hg])
    exact ih (onFill yesToken p f) h1 h2

/-- C3: folding any fills with non-negative sizes into a fresh inventory keeps
`yes_qty ≥ 0` and `no_qty ≥ 0` after every step, with a zero side's average
entry equal to zero; and a SELL against a positive quantity realizes
`(price − avg)·min(size, qty)`, clamps the quantity at zero, and resets the
average entry when the decrement reaches or crosses zero. -/
theorem onFill_inventory_spec (yesToken : String) (fills : List Fill)
    (hsizes : ∀ f ∈ fills, 0 ≤ f.size) :
    (∀ n : ℕ, PosInv (applyFills yesToken freshPosition (fills.take n))) ∧
    (∀ (p : Position) (f : Fill), f.tokenID = yesToken → f.side = Side.SELL →
      0 < p.yesQty →
      (onFill yesToken p f).realizedPnL =
        p.realizedPnL + (f.price - p.avgEntryYes) * min f.size p.yesQty ∧
      (onFill yesToken p f).yesQty = max (p.yesQty - f.size) 0 ∧
      (p.yesQty - f.size ≤ 0 → (onFill yesToken p f).avgEntryYes = 0)) ∧
    (∀ (p : Position) (f : Fill), ¬f.tokenID = yesToken → f.side = Side.SELL →
      0 < p.noQty →
      (onFill yesToken p f).realizedPnL =
        p.realizedPnL + (f.price - p.avgEntryNo) * min f.size p.noQty ∧
      (onFill yesToken p f).noQty = max (p.noQty - f.size) 0 ∧
      (p.noQty - f.size ≤ 0 → (onFill yesToken p f).avgEntryNo = 0)) := by
  refine ⟨?_, ?_, ?_⟩
  · intro n
    refine posInv_applyFills yesToken (fills.take n) freshPosition ?_ ?_
    · exact ⟨le_refl 0, le_refl 0, fun _ => rfl, fun _ => rfl⟩
    · exact fun f hf => hsizes f (List.mem_of_mem_take hf)
  · intro p f htok hside hpos
    have hnb : ¬f.side = Side.BUY := by rw [hside]; intro h; cases h
    unfold onFill applyYesFill
    rw [if_pos htok, if_neg hnb, if_pos hpos]
    by_cases hz : p.yesQty - f.size ≤ 0
    · rw [if_pos hz]
      refine ⟨rfl, ?_, fun _ => rfl⟩
      simp only [max_def]
      rw [if_pos hz]
    · rw [if_neg hz]
      push_neg at hz
      refine ⟨rfl, ?_, fun h => absurd h (not_le.mpr hz)⟩
      simp only [max_def]
      rw [if_neg (not_le.mpr hz)]
  · intro p f htok hside hpos
    have hnb : ¬f.side = Side.BUY := by rw [hside]; intro h; cases h
    unfold onFill applyNoFill
    rw [if_neg htok, if_neg hnb, if_pos hpos]
    by_cases hz : p.noQty - f.size ≤ 0
    · rw [if_pos hz]
      refine ⟨rfl, ?_, fun _ => rfl⟩
      simp only [max_def]
      rw [if_pos hz]
    · rw [if_neg hz]
      push_neg at hz
      refine ⟨rfl, ?_, fun h => absurd h (not_le.mpr hz)⟩
      simp only [max_def]
      rw [if_neg (not_le.mpr hz)]

/-- Fills for the C3 witness: buy 10 YES at 0.50, then sell 4 YES at 0.60. -/
def fillsC3 : List Fill :=
  [{ timestamp := 1, side := Side.BUY, tokenID := "Y", price := 1/2, size := 10
     tradeID := "t1" },
   { timestamp := 2, side := Side.SELL, tokenID := "Y", price := 3/5, size := 4
     tradeID := "t2" }]

theorem onFill_inventory_spec_witness :
    PosInv (applyFills "Y" freshPosition (fillsC3.take 2)) :=
  (onFill_inventory_spec "Y" fillsC3 (by
    intro f hf
    simp only [fillsC3, List.mem_cons, List.not_mem_nil, or_false] at hf
    rcases hf with h | h <;> rw [h] <;> norm_num)).1 2

/-! ## C4: single-fill toxicity -/

/-- The single fill of the C4 scenario. -/
def fillC4 : Fill :=
  { timestamp := 10, side := Side.BUY, tokenID := "Y", price := 1/2, size := 5
    tradeID := "f1" }

/-- Tracker whose window holds exactly `fillC4`, with threshold `θ = 0.8`. -/
def ftC4 : FlowState :=
  { windowDuration := 60, fills := [fillC4], toxicityThreshold := 4/5
    cooldownPeriod := 120, maxSpreadMultiple := 3, lastToxicTime := 0 }

/-- C4 counterexample: with exactly one fill in the window and `θ = 0.8` the
score is `0.6` — so "`score > θ`" is false — yet the code sets `is_averse`
from the imbalance (`1.0 > θ`), returning `true`. -/
theorem singleFill_isAverse_cex :
    evictFills ftC4.windowDuration 10 ftC4.fills = [fillC4] ∧
    (ftC4.calculateToxicity 10).toxicityScore = 3/5 ∧
    ftC4.toxicityThreshold = 4/5 ∧
    ¬(ftC4.calculateToxicity 10).toxicityScore > ftC4.toxicityThreshold ∧
    (ftC4.calculateToxicity 10).isAverse = true := by
  have hev : evictFills ftC4.windowDuration 10 ftC4.fills = [fillC4] := by
    simp only [evictFills, ftC4, fillC4, List.dropWhile]
    norm_num
  have htox : ftC4.calculateToxicity 10 =
      toxicityOf ftC4.windowDuration ftC4.toxicityThreshold [fillC4] := by
    rw [FlowState.calculateToxicity, hev]
  refine ⟨hev, ?_, rfl, ?_, ?_⟩ <;>
    rw [htox] <;>
    simp only [toxicityOf, fillC4, ftC4, List.filter, List.isEmpty_cons] <;>
    norm_num

/-- C4 (amended): with exactly one fill in the window, `CalculateToxicity`
returns `velocity = 0`, `imbalance = 1`, `score = 0.6·imbalance = 0.6`, and
`is_averse = (imbalance > θ)` — the code tests the imbalance, not the score,
in the `n < 2` branch. -/
theorem singleFill_toxicity (ft : FlowState) (now : ℚ) (f : Fill)
    (hwin : evictFills ft.windowDuration now ft.fills = [f]) :
    (ft.calculateToxicity now).directionalImbalance = 1 ∧
    (ft.calculateToxicity now).fillVelocity = 0 ∧
    (ft.calculateToxicity now).toxicityScore = 0.6 * 1 ∧
    (ft.calculateToxicity now).isAverse =
      decide (ft.toxicityThreshold < 1) := by
  have htox : ft.calculateToxicity now =
      toxicityOf ft.windowDuration ft.toxicityThreshold [f] := by
    rw [FlowState.calculateToxicity, hwin]
  rw [htox]
  cases hs : f.side <;>
    simp [toxicityOf, List.filter, hs]

theorem singleFill_toxicity_witness :
    (ftC4.calculateToxicity 10).directionalImbalance = 1 ∧
    (ftC4.calculateToxicity 10).fillVelocity = 0 :=
  have h := singleFill_toxicity ftC4 10 fillC4 (by
    simp only [evictFills, ftC4, fillC4, List.dropWhile]
    norm_num)
  ⟨h.1, h.2.1⟩

/-! ## C5: spread-multiplier bounds -/

theorem one_add_scaled_range (M x : ℚ) (hM : 1 ≤ M) (h0 : 0 ≤ x) (h1 : x ≤ 1) :
    1 ≤ 1 + (M - 1) * x ∧ 1 + (M - 1) * x ≤ M := by
  constructor <;> nlinarith

/-- Tracker with an empty window still inside the post-toxicity cooldown. -/
def ftC5 : FlowState :=
  { windowDuration := 60, fills := [], toxicityThreshold := 3/5
    cooldownPeriod := 10, maxSpreadMultiple := 3, lastToxicTime := 9 }

/-- C5 counterexample: an empty fill window does not force a multiplier of
1.0 — one second after a toxic episode (cooldown 10 s, `M = 3`, `θ = 0.6`)
the decay branch returns 2.8. -/
theorem emptyWindow_multiplier_cex :
    1 ≤ ftC5.maxSpreadMultiple ∧
    0 < ftC5.toxicityThreshold ∧ ftC5.toxicityThreshold < 1 ∧
    evictFills ftC5.windowDuration 10 ftC5.fills = [] ∧
    ftC5.spreadMultiplier 10 = 14/5 ∧
    ¬ftC5.spreadMultiplier 10 = 1 := by
  refine ⟨by norm_num [ftC5], by norm_num [ftC5], by norm_num [ftC5], rfl, ?_, ?_⟩ <;>
    simp only [FlowState.spreadMultiplier, FlowState.calculateToxicity,
      evictFills, toxicityOf, ftC5, List.dropWhile, List.isEmpty_nil] <;>
    norm_num

/-- C5 (amended): for `M ≥ 1`, `θ ∈ (0,1)` and a last-toxic instant not in the
future, `GetSpreadMultiplier` always lands in `[1, M]`; it returns exactly 1.0
when the window is empty **and** the cooldown has expired
(`now − last_toxic_time ≥ C`) — an empty window alone does not suffice. -/
theorem spreadMultiplier_range (ft : FlowState) (now : ℚ)
    (hM : 1 ≤ ft.maxSpreadMultiple) (hθ0 : 0 < ft.toxicityThreshold)
    (hθ1 : ft.toxicityThreshold < 1) (hlast : ft.lastToxicTime ≤ now) :
    1 ≤ ft.spreadMultiplier now ∧
    ft.spreadMultiplier now ≤ ft.maxSpreadMultiple ∧
    (evictFills ft.windowDuration now ft.fills = [] →
      ft.cooldownPeriod ≤ now - ft.lastToxicTime →
      ft.spreadMultiplier now = 1) := by
  have hrange : 1 ≤ ft.spreadMultiplier now ∧
      ft.spreadMultiplier now ≤ ft.maxSpreadMultiple := by
    simp only [FlowState.spreadMultiplier]
    by_cases ha : (ft.calculateToxicity now).isAverse
    · simp only [ha, if_true, Bool.not_true, Bool.false_and, Bool.false_eq_true,
        if_false]
      split_ifs with h2
      · have hzero : now - now = 0 := by ring
        rw [hzero, zero_div]
        have hmin : min (0 : ℚ) 1 = 0 := by norm_num
        rw [hmin]
        exact one_add_scaled_range _ _ hM (by norm_num) (by norm_num)
      · push_neg at h2
        refine one_add_scaled_range _ _ hM ?_ (min_le_right _ _)
        refine le_min ?_ (by norm_num)
        have hnum : 0 ≤ (ft.calculateToxicity now).toxicityScore -
            ft.toxicityThreshold := by linarith
        have hden : 0 < 1 - ft.toxicityThreshold := by linarith
        exact mul_nonneg (div_nonneg hnum hden.le) (by norm_num)
    · simp only [ha, if_false, Bool.not_false, Bool.true_and, Bool.false_eq_true]
      by_cases hc : (decide (now - ft.lastToxicTime < ft.cooldownPeriod)) = true
      · simp only [hc, Bool.not_true, Bool.false_eq_true, if_false]
        rw [decide_eq_true_iff] at hc
        have hC : 0 < ft.cooldownPeriod := by linarith
        split_ifs with h2
        · refine one_add_scaled_range _ _ hM ?_ ?_
          · have := min_le_right ((now - ft.lastToxicTime) / ft.cooldownPeriod) (1 : ℚ)
            linarith
          · have h0 : 0 ≤ (now - ft.lastToxicTime) / ft.cooldownPeriod :=
              div_nonneg (by linarith) hC.le
            have := le_min h0 (by norm_num : (0:ℚ) ≤ 1)
            have hm2 := le_min h0 (le_refl (1:ℚ))
            have : 0 ≤ min ((now - ft.lastToxicTime) / ft.cooldownPeriod) (1:ℚ) :=
              le_min h0 (by norm_num)
            linarith
        · push_neg at h2
          refine one_add_scaled_range _ _ hM ?_ (min_le_right _ _)
          refine le_min ?_ (by norm_num)
          have hnum : 0 ≤ (ft.calculateToxicity now).toxicityScore -
              ft.toxicityThreshold := by linarith
          have hden : 0 < 1 - ft.toxicityThreshold := by linarith
          exact mul_nonneg (div_nonneg hnum hden.le) (by norm_num)
      · simp only [hc, Bool.not_false, if_true]
        exact ⟨le_refl 1, hM⟩
  refine ⟨hrange.1, hrange.2, ?_⟩
  intro hempty hcool
  have hm : ft.calculateToxicity now = ⟨0, 0, 0, false⟩ := by
    rw [FlowState.calculateToxicity, hempty]
    rfl
  have hic : ¬(now - ft.lastToxicTime < ft.cooldownPeriod) := not_lt.mpr (by linarith)
  simp only [FlowState.spreadMultiplier, hm, if_false, Bool.not_false,
    Bool.true_and, Bool.false_eq_true]
  simp [hic]

theorem spreadMultiplier_range_witness :
    1 ≤ ftC5.spreadMultiplier 10 ∧
    ftC5.spreadMultiplier 10 ≤ ftC5.maxSpreadMultiple :=
  have h := spreadMultiplier_range ftC5 10 (by norm_num [ftC5])
    (by norm_num [ftC5]) (by norm_num [ftC5]) (by norm_num [ftC5])
  ⟨h.1, h.2.1⟩

/-! ## C7: kill-signal delivery -/

/-- C7: `emitKill` activates the kill switch with expiry `now + cooldown` and
never loses the new signal: with free queue space it appends; on a full queue
it drops exactly the oldest signal and then appends; the new signal is always
present afterwards and a queue within capacity stays within capacity. -/
theorem emitKill_spec (rm : Manager) (now : ℚ) (marketID reason : String) :
    (rm.emitKill now marketID reason).killSwitchActive = true ∧
    (rm.emitKill now marketID reason).killSwitchUntil =
      now + rm.cfg.cooldownAfterKill ∧
    (rm.killCh.length < rm.killChCap →
      (rm.emitKill now marketID reason).killCh =
        rm.killCh ++ [{ marketID := marketID, reason := reason }]) ∧
    (rm.killChCap ≤ rm.killCh.length →
      (rm.emitKill now marketID reason).killCh =
        rm.killCh.drop 1 ++ [{ marketID := marketID, reason := reason }]) ∧
    ({ marketID := marketID, reason := reason } : KillSignal) ∈
      (rm.emitKill now marketID reason).killCh ∧
    (1 ≤ rm.killChCap → rm.killCh.length ≤ rm.killChCap →
      (rm.emitKill now marketID reason).killCh.length ≤ rm.killChCap) := by
  refine ⟨rfl, rfl, ?_, ?_, ?_, ?_⟩
  · intro h
    simp [Manager.emitKill, h]
  · intro h
    simp [Manager.emitKill, Nat.not_lt.mpr h]
  · by_cases h : rm.killCh.length < rm.killChCap <;>
      simp [Manager.emitKill, h]
  · intro hcap hlen
    by_cases h : rm.killCh.length < rm.killChCap <;>
      simp [Manager.emitKill, h, List.length_drop] <;>
      omega

/-- Manager with a full kill queue (capacity 2) for the C7 witness. -/
def mgrC7 : Manager :=
  { mgrC6 with
    killChCap := 2
    killCh := [{ marketID := "a", reason := "old-a" },
               { marketID := "b", reason := "old-b" }] }

theorem emitKill_spec_witness :
    (mgrC7.emitKill 50 "m1" "daily loss").killSwitchActive = true ∧
    (mgrC7.emitKill 50 "m1" "daily loss").killCh =
      mgrC7.killCh.drop 1 ++ [{ marketID := "m1", reason := "daily loss" }] ∧
    ({ marketID := "m1", reason := "daily loss" } : KillSignal) ∈
      (mgrC7.emitKill 50 "m1" "daily loss").killCh ∧
    (mgrC7.emitKill 50 "m1" "daily loss").killCh.length ≤ mgrC7.killChCap := by
  obtain ⟨h1, _, _, h4, h5, h6⟩ := emitKill_spec mgrC7 50 "m1" "daily loss"
  exact ⟨h1, h4 (by simp [mgrC7]), h5,
    h6 (by simp [mgrC7]) (by simp [mgrC7])⟩

/-! ## C9: market removal frame -/

theorem emitKill_frame (rm : Manager) (now : ℚ) (marketID reason : String) :
    (rm.emitKill now marketID reason).totalExposure = rm.totalExposure ∧
    (rm.emitKill now marketID reason).totalRealizedPnL = rm.totalRealizedPnL ∧
    (rm.emitKill now marketID reason).positions = rm.positions ∧
    (rm.emitKill now marketID reason).cfg = rm.cfg :=
  ⟨rfl, rfl, rfl, rfl⟩

theorem checkPriceMovement_frame (rm : Manager) (now : ℚ) (r : PositionReport) :
    (rm.checkPriceMovement now r).totalExposure = rm.totalExposure ∧
    (rm.checkPriceMovement now r).totalRealizedPnL = rm.totalRealizedPnL ∧
    (rm.checkPriceMovement now r).positions = rm.positions := by
  unfold Manager.checkPriceMovement
  cases rm.priceAnchors.lookup r.marketID with
  | none => exact ⟨rfl, rfl, rfl⟩
  | some anchor =>
    dsimp only
    split_ifs <;> exact ⟨rfl, rfl, rfl⟩

theorem processReport_totals (rm : Manager) (now : ℚ) (r : PositionReport) :
    (rm.processReport now r).totalExposure =
      ((setKey r.marketID r rm.positions).map
        (fun kv => kv.2.exposureUSD)).sum ∧
    (rm.processReport now r).totalRealizedPnL =
      ((setKey r.marketID r rm.positions).map
        (fun kv => kv.2.realizedPnL)).sum := by
  constructor
  · simp only [Manager.processReport]
    split_ifs <;> rw [(checkPriceMovement_frame _ now r).1] <;> rfl
  · simp only [Manager.processReport]
    split_ifs <;> rw [(checkPriceMovement_frame _ now r).2.1] <;> rfl

/-- C9: `RemoveMarket(m)` deletes exactly `m`'s latest-report entry and price
anchor; totals, the kill switch, the kill queue, the config, and every other
market's entries are untouched; the totals are recomputed as the sum over the
stored report map only by the next `processReport`. -/
theorem removeMarket_frame (rm : Manager) (m : String) :
    (rm.removeMarket m).positions.lookup m = none ∧
    (rm.removeMarket m).priceAnchors.lookup m = none ∧
    (∀ m', ¬m' = m →
      (rm.removeMarket m).positions.lookup m' = rm.positions.lookup m' ∧
      (rm.removeMarket m).priceAnchors.lookup m' = rm.priceAnchors.lookup m') ∧
    (rm.removeMarket m).totalExposure = rm.totalExposure ∧
    (rm.removeMarket m).totalRealizedPnL = rm.totalRealizedPnL ∧
    (rm.removeMarket m).killSwitchActive = rm.killSwitchActive ∧
    (rm.removeMarket m).killSwitchUntil = rm.killSwitchUntil ∧
    (rm.removeMarket m).cfg = rm.cfg ∧
    (rm.removeMarket m).killCh = rm.killCh ∧
    (∀ now r,
      ((rm.removeMarket m).processReport now r).totalExposure =
        ((setKey r.marketID r (eraseKey m rm.positions)).map
          (fun kv => kv.2.exposureUSD)).sum ∧
      ((rm.removeMarket m).processReport now r).totalRealizedPnL =
        ((setKey r.marketID r (eraseKey m rm.positions)).map
          (fun kv => kv.2.realizedPnL)).sum) := by
  refine ⟨lookup_eraseKey_self m rm.positions,
    lookup_eraseKey_self m rm.priceAnchors,
    fun m' h => ⟨lookup_eraseKey_ne rm.positions h,
      lookup_eraseKey_ne rm.priceAnchors h⟩,
    rfl, rfl, rfl, rfl, rfl, rfl, fun now r => ?_⟩
  exact processReport_totals (rm.removeMarket m) now r

theorem removeMarket_frame_witness :
    (mgrC6.removeMarket "m2").positions.lookup "m2" = none ∧
    (mgrC6.removeMarket "m2").positions.lookup "m3" =
      mgrC6.positions.lookup "m3" ∧
    (mgrC6.removeMarket "m2").totalExposure = mgrC6.totalExposure := by
  obtain ⟨h1, -, h3, h4, -⟩ := removeMarket_frame mgrC6 "m2"
  exact ⟨h1, (h3 "m3" (by simp)).1, h4⟩

/-- A plain two-sided book for the C8 witness. -/
def bookMid : Book := { yesBids := [9/20], yesAsks := [11/20] }

theorem midPrice_iff_witness : bookMid.midPrice.isSome = true :=
  (midPrice_iff bookMid).1.mpr
    ⟨by simp [bookMid], by simp [bookMid], by norm_num [bookMid]⟩

/-! ## C10: zero-anchor guard -/

/-- C10: when a price anchor exists, is within the rapid-move window, and has
price `0`, `checkPriceMovement` changes nothing: no kill signal, no anchor
update, for every reported mid. -/
theorem checkPriceMovement_zero_anchor (rm : Manager) (now : ℚ)
    (r : PositionReport) (anchor : PriceAnchor)
    (hlook : rm.priceAnchors.lookup r.marketID = some anchor)
    (hwin : r.timestamp - anchor.timestamp ≤ rm.cfg.killSwitchWindowSec)
    (hzero : anchor.price = 0) :
    rm.checkPriceMovement now r = rm := by
  unfold Manager.checkPriceMovement
  rw [hlook]
  simp only [not_lt.mpr hwin, if_false, if_neg (not_lt.mpr hwin), if_pos hzero]

/-- State for the C10 witness: one anchor at price `0`, age 5 s, window 60 s. -/
def mgrC10 : Manager :=
  { mgrC6 with priceAnchors := [("m1", { price := 0, timestamp := 5 })] }

/-- Report for the C10 witness. -/
def reportC10 : PositionReport :=
  { sampleReport "m1" 0 with midPrice := 7/10, timestamp := 10 }

theorem checkPriceMovement_zero_anchor_witness :
    mgrC10.checkPriceMovement 11 reportC10 = mgrC10 :=
  checkPriceMovement_zero_anchor mgrC10 11 reportC10 { price := 0, timestamp := 5 }
    (by simp [mgrC10, reportC10, List.lookup, sampleReport])
    (by norm_num [mgrC10, mgrC6, reportC10, sampleReport])
    rfl

end PolymarketMM
